import Mathlib

/-
Verification of the AllinB CRUD backend (Go): seat/room resource handlers,
dynamic query builder, bounded job queue, and URL masking.

Strings are modelled as lists of characters (`Str`), Go byte/rune handling
being irrelevant to the verified properties.  JSON-decoded Go values
(`map[string]interface{}` entries and query arguments) are modelled by
`GoVal`; a Go `float64` obtained from a JSON number is modelled as a
rational, and the Go conversion `int(v)` as truncation toward zero, which
agrees with Go on every value the conversion does not overflow.
-/

namespace AllinB

abbrev Str : Type := List Char

/-- Shorthand turning a Lean string literal into the `Str` model. -/
def chars (x : String) : Str := x.data

/-- A Go value as it appears in decoded JSON bodies and in query-argument
lists (`interface{}`); `int` is a Go integer (the path key appended to the
argument list), the other constructors are the JSON shapes produced by
`encoding/json` into `interface{}`. -/
inductive GoVal where
  | null : GoVal
  | bool (b : Bool) : GoVal
  | num (q : ℚ) : GoVal
  | str (v : Str) : GoVal
  | arr (xs : List GoVal) : GoVal
  | obj (kvs : List (Str × GoVal)) : GoVal
  | int (n : ℤ) : GoVal

/-- `strings.Split` with a one-character separator. -/
def splitOnChar (c : Char) : Str → List Str
  | [] => [[]]
  | d :: rest =>
    if d = c then [] :: splitOnChar c rest
    else
      match splitOnChar c rest with
      | [] => [[d]]
      | h :: t => (d :: h) :: t

theorem splitOnChar_ne_nil (c : Char) (xs : Str) : splitOnChar c xs ≠ [] := by
  induction xs with
  | nil => simp [splitOnChar]
  | cons d rest ih =>
    by_cases h : d = c
    · simp [splitOnChar, h]
    · simp only [splitOnChar, if_neg h]
      cases hs : splitOnChar c rest with
      | nil => simp
      | cons a b => simp

theorem splitOnChar_of_not_mem {c : Char} {xs : Str} (h : c ∉ xs) :
    splitOnChar c xs = [xs] := by
  induction xs with
  | nil => simp [splitOnChar]
  | cons d rest ih =>
    have hd : d ≠ c := fun he => h (he ▸ List.mem_cons_self d rest)
    have hr : c ∉ rest := fun hm => h (List.mem_cons_of_mem d hm)
    simp [splitOnChar, hd, ih hr]

theorem splitOnChar_append {c : Char} {xs ys : Str} (h : c ∉ xs) :
    splitOnChar c (xs ++ c :: ys) = xs :: splitOnChar c ys := by
  induction xs with
  | nil => simp [splitOnChar]
  | cons d rest ih =>
    have hd : d ≠ c := fun he => h (he ▸ List.mem_cons_self d rest)
    have hr : c ∉ rest := fun hm => h (List.mem_cons_of_mem d hm)
    simp only [List.cons_append, splitOnChar, if_neg hd, List.append_eq, ih hr]

/-- The credential half of `MaskSensitiveURL`: `p0` is the text before the
first `@`, `p1` the text between the first and second `@`. -/
def maskCredentials (p0 p1 : Str) : Str :=
  match splitOnChar ':' p0 with
  | c0 :: c1 :: _ :: _ => c0 ++ chars ":" ++ c1 ++ chars ":******@" ++ p1
  | _ => chars "[비표준 URL 형식]"

/-- `utils.MaskSensitiveURL` from queue.go: masks the password (third
colon-separated credential ahead of the first `@`) of a connection URL. -/
def MaskSensitiveURL (url : Str) : Str :=
  if url = [] then []
  else
    match splitOnChar '@' url with
    | p0 :: p1 :: _ => maskCredentials p0 p1
    | _ => chars "[비표준 URL 형식]"

/-- Go `strings.TrimSpace` (whitespace set restricted to the characters
`Char.isWhitespace` recognises, which covers every character the handlers
meet in an ASCII header). -/
def trimSpace (xs : Str) : Str :=
  ((xs.dropWhile Char.isWhitespace).reverse.dropWhile Char.isWhitespace).reverse

/-- Go `strconv.Itoa` on a natural number, as used for `$n` placeholders. -/
def natStr (n : ℕ) : Str := (Nat.repr n).data

/-- Does `needle` occur at the start of the second list?  (Helper for the
`strings.Contains` model.) -/
def leadsWith : Str → Str → Bool
  | [], _ => true
  | _ :: _, [] => false
  | a :: xs, b :: ys => a = b && leadsWith xs ys

/-- Go `strings.Contains hay needle`. -/
def containsSub (needle : Str) : Str → Bool
  | [] => leadsWith needle []
  | c :: t => leadsWith needle (c :: t) || containsSub needle t

/-- The `X-Fields` header split on commas, each piece trimmed (GetSeats /
GetRooms lines building `requested`). -/
def requestedFields (fieldsHeader : Str) : List Str :=
  (splitOnChar ',' fieldsHeader).map trimSpace

/-- The requested names that survive the allow-list, in request order. -/
def matchedFields (allowedFields : List Str) (fieldsHeader : Str) : List Str :=
  (requestedFields fieldsHeader).filter (fun f => decide (f ∈ allowedFields))

/-- The field-selection step shared by `GetSeats` and `GetRooms`: an absent
header or a header in which no name survives the allow-list falls back to
the full allow-list; otherwise exactly the surviving names are kept in
request order. -/
def selectFields (allowedFields : List Str) (fieldsHeader : Str) : List Str :=
  match fieldsHeader with
  | [] => allowedFields
  | _ =>
    match matchedFields allowedFields fieldsHeader with
    | [] => allowedFields
    | f :: fs => f :: fs

/-- `allowedFields` of `GetSeats`. -/
def seatAllowedFields : List Str :=
  [chars "auto_increment", chars "company_code", chars "seat_code", chars "seat_title",
   chars "title_background_color", chars "title_text_color", chars "seat_background_color",
   chars "seat_top", chars "seat_left", chars "seat_width", chars "seat_height",
   chars "gender", chars "waiting", chars "release", chars "hide_title",
   chars "transparent_background", chars "hide_border", chars "kiosk_disabled",
   chars "power_control", chars "breaker_number"]

/-- `allowedFields` of `GetRooms`. -/
def roomAllowedFields : List Str :=
  [chars "auto_increment", chars "company_code", chars "room_code", chars "room_title",
   chars "title_background_color", chars "title_text_color", chars "room_background_color",
   chars "room_top", chars "room_left", chars "room_width", chars "room_height",
   chars "gender", chars "waiting", chars "release", chars "hide_title",
   chars "transparent_background", chars "hide_border", chars "kiosk_disabled",
   chars "power_control", chars "breaker_number"]

/-- `allowedSortFields` of `GetSeats`. -/
def seatAllowedSortFields : List Str :=
  [chars "seat_code", chars "seat_title", chars "auto_increment"]

/-- The sort key once an optional leading dash is stripped
(`strings.HasPrefix(sort, "-")` and the slice `sort[1:]`). -/
def sortKeyOf (srt : Str) : Str :=
  match srt with
  | [] => []
  | c :: rest => if c = '-' then rest else c :: rest

/-- The `ORDER BY` fragment `GetSeats` appends: absent parameter means the
default `seat_code ASC`; a recognised key (optionally dash-prefixed for
descending) is interpolated; an unrecognised key adds nothing. -/
def seatSortClause (srt : Str) : Str :=
  match srt with
  | [] => chars " ORDER BY seat_code ASC"
  | c :: rest =>
    let p : Str × Str :=
      if c = '-' then (rest, chars "DESC") else (c :: rest, chars "ASC")
    if p.1 ∈ seatAllowedSortFields then
      chars " ORDER BY " ++ p.1 ++ chars " " ++ p.2
    else []

/-- A seat-list request: the `X-Fields` header and the query parameters of
`GetSeats`; as in Go, the empty string stands for an absent header or
parameter (`r.URL.Query().Get` and `r.Header.Get` return `""` then). -/
structure SeatListReq where
  xFields : Str
  companyCode : Str
  seatCode : Str
  gender : Str
  waiting : Str
  release : Str
  kioskDisabled : Str
  powerControl : Str
  search : Str
  sort : Str

/-- `filterParams` of `GetSeats` (parameter name and column name coincide);
Go iterates the map in unspecified order, the embedding fixes the source
order, which no verified claim depends on. -/
def seatFilterParams : List Str :=
  [chars "company_code", chars "seat_code", chars "gender", chars "waiting",
   chars "release", chars "kiosk_disabled", chars "power_control"]

/-- `r.URL.Query().Get` for the recognised seat filter parameters. -/
def getParam (r : SeatListReq) (p : Str) : Str :=
  if p = chars "company_code" then r.companyCode
  else if p = chars "seat_code" then r.seatCode
  else if p = chars "gender" then r.gender
  else if p = chars "waiting" then r.waiting
  else if p = chars "release" then r.release
  else if p = chars "kiosk_disabled" then r.kioskDisabled
  else if p = chars "power_control" then r.powerControl
  else []

/-- The filter loop of `GetSeats`: for each present parameter it appends
`"col = $idx"` to the clause list and the raw value to the argument list,
returning also the next placeholder index. -/
def buildFilters (get : Str → Str) : List Str → ℕ → List Str × List GoVal × ℕ
  | [], idx => ([], [], idx)
  | p :: ps, idx =>
    if get p = [] then buildFilters get ps idx
    else
      let r := buildFilters get ps (idx + 1)
      ((p ++ chars " = $" ++ natStr idx) :: r.1, GoVal.str (get p) :: r.2.1, r.2.2)

/-- The query and argument list `GetSeats` hands to `QueryContext`:
field selection, conjunctive filters plus the `LIKE` search, and the sort
clause, in the order the source assembles them. -/
def GetSeatsQuery (r : SeatListReq) : Str × List GoVal :=
  let fields := selectFields seatAllowedFields r.xFields
  let t := buildFilters (getParam r) seatFilterParams 1
  let t2 : List Str × List GoVal × ℕ :=
    if r.search = [] then t
    else (t.1 ++ [chars "seat_title LIKE $" ++ natStr t.2.2],
          t.2.1 ++ [GoVal.str (chars "%" ++ r.search ++ chars "%")], t.2.2 + 1)
  let query := chars "SELECT " ++ List.intercalate (chars ", ") fields
      ++ chars " FROM seat_table"
  let query :=
    match t2.1 with
    | [] => query
    | _ => query ++ chars " WHERE " ++ List.intercalate (chars " AND ") t2.1
  (query ++ seatSortClause r.sort, t2.2.1)

/-- `GetSeatsQuery` without its trailing sort clause (the query text as it
stands right before the sort-option block of the source). -/
def seatsSelectWhere (r : SeatListReq) : Str :=
  let fields := selectFields seatAllowedFields r.xFields
  let t := buildFilters (getParam r) seatFilterParams 1
  let t2 : List Str × List GoVal × ℕ :=
    if r.search = [] then t
    else (t.1 ++ [chars "seat_title LIKE $" ++ natStr t.2.2],
          t.2.1 ++ [GoVal.str (chars "%" ++ r.search ++ chars "%")], t.2.2 + 1)
  let query := chars "SELECT " ++ List.intercalate (chars ", ") fields
      ++ chars " FROM seat_table"
  match t2.1 with
  | [] => query
  | _ => query ++ chars " WHERE " ++ List.intercalate (chars " AND ") t2.1

/-- Outcome of the update handlers up to the point where the row is (or is
not) written: either an early 400 with its message, or the `UPDATE`
statement handed to `ExecContext` together with its argument list.  The
subsequent job enqueue and re-fetch touch no row and are modelled
separately. -/
inductive UpdateResult where
  | badRequest (msg : Str) : UpdateResult
  | exec (query : Str) (args : List GoVal) : UpdateResult

def isBadRequest : UpdateResult → Bool
  | .badRequest _ => true
  | .exec _ _ => false

/-- The `UPDATE` statement an outcome executes, if any. -/
def updateExecQuery : UpdateResult → Option (Str × List GoVal)
  | .badRequest _ => none
  | .exec q args => some (q, args)

/-- Go map lookup `updateData[key]` on the decoded body (one binding per
key, as `encoding/json` produces). -/
def lookupKey (k : Str) : List (Str × GoVal) → Option GoVal
  | [] => none
  | (k2, v) :: rest => if k2 = k then some v else lookupKey k rest

/-- Go `delete(updateData, key)`. -/
def stripKey (k : Str) (body : List (Str × GoVal)) : List (Str × GoVal) :=
  body.filter (fun kv => decide (kv.1 ≠ k))

/-- Go `int(v)` on a JSON number decoded as `float64`: truncation toward
zero. -/
def truncInt (q : ℚ) : ℤ := q.num.tdiv q.den

/-- The `SET`-building loop of the update handlers: allow-listed keys become
`"key = $idx"` fragments, their values are appended to the arguments, and
the final placeholder index is returned. -/
def buildSet (allowed : List Str) : List (Str × GoVal) → ℕ → List Str × List GoVal × ℕ
  | [], idx => ([], [], idx)
  | (k, v) :: rest, idx =>
    if k ∈ allowed then
      let r := buildSet allowed rest (idx + 1)
      ((k ++ chars " = $" ++ natStr idx) :: r.1, v :: r.2.1, r.2.2)
    else buildSet allowed rest idx

/-- The per-resource constants of an update handler: table, business-key
column, `SET` allow-list, and the four 400 messages of the source. -/
structure UpdCfg where
  table : Str
  keyField : Str
  allowed : List Str
  mismatchMsg : Str
  badKeyMsg : Str
  emptyMsg : Str
  invalidMsg : Str

/-- The second half of the update handlers, applied to the body once the
business key is checked and stripped: empty-body check, allow-list
filtering, and the final `UPDATE ... WHERE key = $idx` assembly. -/
def updateAssemble (cfg : UpdCfg) (pathCode : ℤ)
    (body1 : List (Str × GoVal)) : UpdateResult :=
  match body1 with
  | [] => .badRequest cfg.emptyMsg
  | _ :: _ =>
    let t := buildSet cfg.allowed body1 1
    match t.1 with
    | [] => .badRequest cfg.invalidMsg
    | _ :: _ =>
      .exec (chars "UPDATE " ++ cfg.table ++ chars " SET "
              ++ List.intercalate (chars ", ") t.1
              ++ chars " WHERE " ++ cfg.keyField ++ chars " = $" ++ natStr t.2.2)
            (t.2.1 ++ [GoVal.int pathCode])

/-- The update handler body shared verbatim by `UpdateSeat` and
`UpdateRoom`, after path-key parsing and JSON decoding: business-key
mismatch check and strip, then `updateAssemble`. -/
def updateCore (cfg : UpdCfg) (pathCode : ℤ) (body : List (Str × GoVal)) :
    UpdateResult :=
  match lookupKey cfg.keyField body with
  | none => updateAssemble cfg pathCode body
  | some (GoVal.num q) =>
      if truncInt q ≠ pathCode then .badRequest cfg.mismatchMsg
      else updateAssemble cfg pathCode (stripKey cfg.keyField body)
  | some _ => .badRequest cfg.badKeyMsg

/-- `allowed` of `UpdateSeat`. -/
def seatUpdateAllowed : List Str :=
  [chars "company_code", chars "seat_title", chars "seat_background_color",
   chars "seat_top", chars "seat_left", chars "seat_width", chars "seat_height",
   chars "title_background_color", chars "title_text_color", chars "gender",
   chars "waiting", chars "release", chars "hide_title",
   chars "transparent_background", chars "hide_border", chars "kiosk_disabled",
   chars "power_control", chars "breaker_number"]

/-- `allowed` of `UpdateRoom`. -/
def roomUpdateAllowed : List Str :=
  [chars "company_code", chars "room_title", chars "room_background_color",
   chars "room_top", chars "room_left", chars "room_width", chars "room_height",
   chars "title_background_color", chars "title_text_color", chars "gender",
   chars "waiting", chars "release", chars "hide_title",
   chars "transparent_background", chars "hide_border", chars "kiosk_disabled",
   chars "power_control", chars "breaker_number"]

def seatUpdCfg : UpdCfg :=
  { table := chars "seat_table"
    keyField := chars "seat_code"
    allowed := seatUpdateAllowed
    mismatchMsg := chars "URL과 body의 seat_code가 다릅니다."
    badKeyMsg := chars "잘못된 seat_code 값"
    emptyMsg := chars "업데이트할 필드가 없습니다."
    invalidMsg := chars "유효한 업데이트 필드가 없습니다." }

def roomUpdCfg : UpdCfg :=
  { table := chars "room_table"
    keyField := chars "room_code"
    allowed := roomUpdateAllowed
    mismatchMsg := chars "URL과 body의 room_code가 다릅니다."
    badKeyMsg := chars "잘못된 room_code 값"
    emptyMsg := chars "업데이트할 필드가 없습니다."
    invalidMsg := chars "유효한 업데이트 필드가 없습니다." }

/-- `UpdateSeat` on a parsed path key and decoded body. -/
def UpdateSeatCore (pathCode : ℤ) (body : List (Str × GoVal)) : UpdateResult :=
  updateCore seatUpdCfg pathCode body

/-- `UpdateRoom` on a parsed path key and decoded body. -/
def UpdateRoomCore (pathCode : ℤ) (body : List (Str × GoVal)) : UpdateResult :=
  updateCore roomUpdCfg pathCode body

/-- The `Seat` struct of seat.go; the default values are the Go zero
values, which is what `encoding/json` leaves in fields the body omits. -/
structure Seat where
  autoIncrement : ℤ := 0
  companyCode : ℤ := 0
  seatCode : ℤ := 0
  seatTitle : Str := []
  titleBackgroundColor : Str := []
  titleTextColor : Str := []
  seatBackgroundColor : Str := []
  seatTop : ℤ := 0
  seatLeft : ℤ := 0
  seatWidth : ℤ := 0
  seatHeight : ℤ := 0
  gender : ℤ := 0
  waiting : ℤ := 0
  release : ℤ := 0
  hideTitle : ℤ := 0
  transparentBackground : ℤ := 0
  hideBorder : ℤ := 0
  kioskDisabled : ℤ := 0
  powerControl : ℤ := 0
  breakerNumber : ℤ := 0

/-- The `Room` struct of room.go. -/
structure Room where
  autoIncrement : ℤ := 0
  companyCode : ℤ := 0
  roomCode : ℤ := 0
  roomTitle : Str := []
  titleBackgroundColor : Str := []
  titleTextColor : Str := []
  roomBackgroundColor : Str := []
  roomTop : ℤ := 0
  roomLeft : ℤ := 0
  roomWidth : ℤ := 0
  roomHeight : ℤ := 0
  gender : ℤ := 0
  waiting : ℤ := 0
  release : ℤ := 0
  hideTitle : ℤ := 0
  transparentBackground : ℤ := 0
  hideBorder : ℤ := 0
  kioskDisabled : ℤ := 0
  powerControl : ℤ := 0
  breakerNumber : ℤ := 0

/-- The default block of `CreateSeat`: zero dimensions become 100, empty
colors become the three fixed hex values. -/
def applySeatDefaults (st : Seat) : Seat :=
  let st := if st.seatWidth = 0 then { st with seatWidth := 100 } else st
  let st := if st.seatHeight = 0 then { st with seatHeight := 100 } else st
  let st := if st.seatBackgroundColor = [] then
      { st with seatBackgroundColor := chars "#FFFFFF" } else st
  let st := if st.titleBackgroundColor = [] then
      { st with titleBackgroundColor := chars "#000000" } else st
  let st := if st.titleTextColor = [] then
      { st with titleTextColor := chars "#FFFFFF" } else st
  st

/-- The default block of `CreateRoom`. -/
def applyRoomDefaults (st : Room) : Room :=
  let st := if st.roomWidth = 0 then { st with roomWidth := 100 } else st
  let st := if st.roomHeight = 0 then { st with roomHeight := 100 } else st
  let st := if st.roomBackgroundColor = [] then
      { st with roomBackgroundColor := chars "#FFFFFF" } else st
  let st := if st.titleBackgroundColor = [] then
      { st with titleBackgroundColor := chars "#000000" } else st
  let st := if st.titleTextColor = [] then
      { st with titleTextColor := chars "#FFFFFF" } else st
  st

/-- Outcome of a create handler once the body decoded: 400 on a duplicate
key, 500 with the raw error text otherwise, or 201 echoing the record that
was inserted (defaults applied). -/
inductive CreateResult (α : Type) where
  | badRequest (msg : Str) : CreateResult α
  | serverError (msg : Str) : CreateResult α
  | created (rec : α) : CreateResult α

/-- `CreateSeat` on a decoded body; `dbErr` is the error text the insert
returned, `none` on success.  The inserted argument list and the echoed
201 body are both the defaulted record. -/
def CreateSeat (seat : Seat) (dbErr : Option Str) : CreateResult Seat :=
  let seat := applySeatDefaults seat
  match dbErr with
  | some e =>
    if containsSub (chars "duplicate key") e then
      .badRequest (chars "이미 존재하는 seat code입니다")
    else .serverError e
  | none => .created seat

/-- `CreateRoom` on a decoded body. -/
def CreateRoom (room : Room) (dbErr : Option Str) : CreateResult Room :=
  let room := applyRoomDefaults room
  match dbErr with
  | some e =>
    if containsSub (chars "duplicate key") e then
      .badRequest (chars "이미 존재하는 room code입니다")
    else .serverError e
  | none => .created room

/-- `DeleteSeat` against a table modelled as a row list: the `DELETE`
removes every row with the key and the handler answers 204 with no
existence check; a database error answers 500 and leaves the table as the
database left it (modelled unchanged). -/
def DeleteSeatExec (code : ℤ) (db : List Seat) (dbErr : Option Str) :
    ℕ × List Seat :=
  match dbErr with
  | some _ => (500, db)
  | none => (204, db.filter (fun row => decide (row.seatCode ≠ code)))

/-- `DeleteRoom` against a table modelled as a row list. -/
def DeleteRoomExec (code : ℤ) (db : List Room) (dbErr : Option Str) :
    ℕ × List Room :=
  match dbErr with
  | some _ => (500, db)
  | none => (204, db.filter (fun row => decide (row.roomCode ≠ code)))

/-- The `Job` struct of queue.go. -/
structure Job where
  Name : Str
  Data : List (Str × GoVal)
  Priority : ℤ

/-- The capacity of the buffered channel `jobQueue`. -/
def jobQueueCapacity : ℕ := 100

/-- `EnqueueJob`: the non-blocking send on the buffered channel.  The
boolean records whether the `default` branch ran, i.e. the job was dropped
(and only logged); in either case the function returns at once. -/
def EnqueueJob (q : List Job) (j : Job) : List Job × Bool :=
  if q.length < jobQueueCapacity then (q ++ [j], false) else (q, true)

/-- One step of the queue: a producer calling `EnqueueJob`, or a worker
receiving the front job. -/
inductive QueueStep : List Job → List Job → Prop where
  | enq (q : List Job) (j : Job) : QueueStep q (EnqueueJob q j).1
  | deq (j : Job) (q : List Job) : QueueStep (j :: q) q

/-- The queue states reachable from the initial empty channel. -/
def QueueReachable (q : List Job) : Prop :=
  Relation.ReflTransGen QueueStep [] q

/-- `"col = $idx"` fragments for a column list with consecutive placeholder
indices: the shape of both the seat filter clauses and the update `SET`
fragments.  It consumes column names only — no request value reaches it. -/
def renderFilterClauses : List Str → ℕ → List Str
  | [], _ => []
  | c :: cs, idx => (c ++ chars " = $" ++ natStr idx) :: renderFilterClauses cs (idx + 1)

/-- The filter columns a seat-list request activates (those whose parameter
is present); a sublist of the fixed `seatFilterParams`. -/
def presentFilterCols (r : SeatListReq) : List Str :=
  seatFilterParams.filter (fun p => decide (getParam r p ≠ []))

/-- The argument list a seat-list request produces: the raw filter values
in parameter order, then the wrapped search value. -/
def seatsListArgs (r : SeatListReq) : List GoVal :=
  (presentFilterCols r).map (fun p => GoVal.str (getParam r p)) ++
    (if r.search = [] then [] else [GoVal.str (chars "%" ++ r.search ++ chars "%")])

/-- The seat-list query text as a function of the selected fields, the
active filter columns, the presence of the search parameter, and the sort
fragment alone: every identifier it interpolates comes from its column
arguments and no request value occurs in it. -/
def renderSeatsListQuery (fields cols : List Str) (hasSearch : Bool)
    (sortPart : Str) : Str :=
  let clauses := renderFilterClauses cols 1
  let clauses :=
    if hasSearch then clauses ++ [chars "seat_title LIKE $" ++ natStr (cols.length + 1)]
    else clauses
  let q := chars "SELECT " ++ List.intercalate (chars ", ") fields
      ++ chars " FROM seat_table"
  let q :=
    match clauses with
    | [] => q
    | _ => q ++ chars " WHERE " ++ List.intercalate (chars " AND ") clauses
  q ++ sortPart

/-- The sort fragment is never user text: it is empty, the fixed default,
or `" ORDER BY k dir"` for an allow-listed `k` and a fixed direction. -/
def seatSortClauseSafe (srt : Str) : Prop :=
  seatSortClause srt = [] ∨
  seatSortClause srt = chars " ORDER BY seat_code ASC" ∨
  ∃ k, k ∈ seatAllowedSortFields ∧
    (seatSortClause srt = chars " ORDER BY " ++ k ++ chars " " ++ chars "ASC" ∨
     seatSortClause srt = chars " ORDER BY " ++ k ++ chars " " ++ chars "DESC")

/-- The body keys that survive an update allow-list, in body order. -/
def filteredKeys (allowed : List Str) (body : List (Str × GoVal)) : List Str :=
  (body.map Prod.fst).filter (fun k => decide (k ∈ allowed))

/-- The body values whose keys survive an update allow-list, in body
order. -/
def filteredVals (allowed : List Str) (body : List (Str × GoVal)) : List GoVal :=
  (body.filter (fun kv => decide (kv.1 ∈ allowed))).map Prod.snd

/-- The body as the update loop sees it: the business key stripped when it
was present, numeric and equal (after truncation) to the path key. -/
def strippedBody (key : Str) (pathCode : ℤ) (body : List (Str × GoVal)) :
    List (Str × GoVal) :=
  match lookupKey key body with
  | some (GoVal.num q) => if truncInt q = pathCode then stripKey key body else body
  | _ => body

/-- The update statement text as a function of the surviving column names
alone: table, key column and `SET` columns are the only identifiers, the
values live in the placeholder arguments. -/
def renderUpdateQuery (cfg : UpdCfg) (cols : List Str) : Str :=
  chars "UPDATE " ++ cfg.table ++ chars " SET "
    ++ List.intercalate (chars ", ") (renderFilterClauses cols 1)
    ++ chars " WHERE " ++ cfg.keyField ++ chars " = $" ++ natStr (cols.length + 1)

/-- An update outcome never interpolates a value: either it is an early
400, or its text is `renderUpdateQuery` of the surviving allow-listed
columns and its arguments are exactly the surviving values plus the path
key. -/
def UpdateQuerySafe (cfg : UpdCfg) (pathCode : ℤ)
    (body : List (Str × GoVal)) : Prop :=
  match updateCore cfg pathCode body with
  | .badRequest _ => True
  | .exec q args =>
      q = renderUpdateQuery cfg
            (filteredKeys cfg.allowed (strippedBody cfg.keyField pathCode body)) ∧
      args = filteredVals cfg.allowed (strippedBody cfg.keyField pathCode body)
               ++ [GoVal.int pathCode]

/-- A seat-list request only ever produces the rendered query over
allow-listed fields, fixed filter columns, a safe sort fragment, and passes
exactly the request values as placeholder arguments. -/
def SeatsListQuerySafe (r : SeatListReq) : Prop :=
  (∀ f ∈ selectFields seatAllowedFields r.xFields, f ∈ seatAllowedFields) ∧
  (∀ c ∈ presentFilterCols r, c ∈ seatFilterParams) ∧
  seatSortClauseSafe r.sort ∧
  (GetSeatsQuery r).1 =
    renderSeatsListQuery (selectFields seatAllowedFields r.xFields)
      (presentFilterCols r) (decide (r.search ≠ [])) (seatSortClause r.sort) ∧
  (GetSeatsQuery r).2 = seatsListArgs r

theorem selectFields_sub (allowedFields : List Str) (h : Str) :
    ∀ f ∈ selectFields allowedFields h, f ∈ allowedFields := by
  intro f hf
  cases h with
  | nil => exact hf
  | cons a t =>
    simp only [selectFields] at hf
    cases hm : matchedFields allowedFields (a :: t) with
    | nil => rw [hm] at hf; exact hf
    | cons x xs =>
      rw [hm] at hf
      have hf2 : f ∈ matchedFields allowedFields (a :: t) := by
        rw [hm]; exact hf
      unfold matchedFields at hf2
      exact of_decide_eq_true (List.mem_filter.mp hf2).2

theorem buildFilters_eq (get : Str → Str) (ps : List Str) : ∀ idx : ℕ,
    buildFilters get ps idx =
      (renderFilterClauses (ps.filter (fun p => decide (get p ≠ []))) idx,
       (ps.filter (fun p => decide (get p ≠ []))).map (fun p => GoVal.str (get p)),
       idx + (ps.filter (fun p => decide (get p ≠ []))).length) := by
  induction ps with
  | nil => intro idx; simp [buildFilters, renderFilterClauses]
  | cons p ps ih =>
    intro idx
    by_cases h : get p = []
    · simp [buildFilters, h, ih idx, List.filter_cons]
    · simp only [buildFilters, if_neg h, ih (idx + 1)]
      have hfc : List.filter (fun q => decide (get q ≠ [])) (p :: ps) =
          p :: List.filter (fun q => decide (get q ≠ [])) ps := by
        simp [List.filter_cons, h]
      rw [hfc]
      simp only [renderFilterClauses, List.map_cons, List.length_cons,
        Prod.mk.injEq]
      refine ⟨trivial, trivial, ?_⟩
      omega

theorem buildSet_eq (allowed : List Str) (body : List (Str × GoVal)) :
    ∀ idx : ℕ,
    buildSet allowed body idx =
      (renderFilterClauses (filteredKeys allowed body) idx,
       filteredVals allowed body,
       idx + (filteredKeys allowed body).length) := by
  induction body with
  | nil => intro idx; simp [buildSet, filteredKeys, filteredVals, renderFilterClauses]
  | cons kv rest ih =>
    intro idx
    obtain ⟨k, v⟩ := kv
    by_cases h : k ∈ allowed
    · simp only [buildSet, if_pos h, ih (idx + 1), filteredKeys, filteredVals,
        List.map_cons]
      have hfc : List.filter (fun g => decide (g ∈ allowed)) (k :: rest.map Prod.fst) =
          k :: List.filter (fun g => decide (g ∈ allowed)) (rest.map Prod.fst) := by
        simp [List.filter_cons, h]
      have hfc2 : List.filter (fun kv => decide (kv.1 ∈ allowed)) ((k, v) :: rest) =
          (k, v) :: List.filter (fun kv => decide (kv.1 ∈ allowed)) rest := by
        simp [List.filter_cons, h]
      rw [hfc, hfc2]
      simp only [renderFilterClauses, List.map_cons, List.length_cons,
        Prod.mk.injEq]
      refine ⟨trivial, trivial, ?_⟩
      omega
    · simp [buildSet, h, ih idx, filteredKeys, filteredVals, List.filter_cons]

theorem seatSortClause_safe (srt : Str) : seatSortClauseSafe srt := by
  unfold seatSortClauseSafe
  cases srt with
  | nil => exact Or.inr (Or.inl rfl)
  | cons c rest =>
    by_cases hc : c = '-'
    · by_cases hm : rest ∈ seatAllowedSortFields
      · exact Or.inr (Or.inr ⟨rest, hm, Or.inr (by simp [seatSortClause, hc, hm])⟩)
      · exact Or.inl (by simp [seatSortClause, hc, hm])
    · by_cases hm : (c :: rest) ∈ seatAllowedSortFields
      · exact Or.inr (Or.inr ⟨c :: rest, hm, Or.inl (by simp [seatSortClause, hc, hm])⟩)
      · exact Or.inl (by simp [seatSortClause, hc, hm])

theorem GetSeatsQuery_eq (r : SeatListReq) :
    (GetSeatsQuery r).1 =
      renderSeatsListQuery (selectFields seatAllowedFields r.xFields)
        (presentFilterCols r) (decide (r.search ≠ [])) (seatSortClause r.sort) ∧
    (GetSeatsQuery r).2 = seatsListArgs r := by
  unfold GetSeatsQuery renderSeatsListQuery seatsListArgs presentFilterCols
  rw [buildFilters_eq (getParam r) seatFilterParams 1]
  by_cases hs : r.search = []
  · simp [hs]
  · simp [hs, Nat.add_comm]

theorem updateAssemble_safe (cfg : UpdCfg) (pc : ℤ)
    (b1 : List (Str × GoVal)) :
    (∃ m, updateAssemble cfg pc b1 = .badRequest m) ∨
    updateAssemble cfg pc b1 =
      .exec (renderUpdateQuery cfg (filteredKeys cfg.allowed b1))
        (filteredVals cfg.allowed b1 ++ [GoVal.int pc]) := by
  cases hb : b1 with
  | nil => exact Or.inl ⟨cfg.emptyMsg, rfl⟩
  | cons kv rest =>
    unfold updateAssemble
    rw [buildSet_eq cfg.allowed (kv :: rest) 1]
    cases hk : filteredKeys cfg.allowed (kv :: rest) with
    | nil => exact Or.inl ⟨cfg.invalidMsg, rfl⟩
    | cons c cs =>
      refine Or.inr ?_
      unfold renderUpdateQuery
      simp only [renderFilterClauses, List.length_cons]
      have harith : 1 + (cs.length + 1) = cs.length + 1 + 1 := by omega
      rw [harith]

theorem updateCore_safe (cfg : UpdCfg) (pc : ℤ)
    (body : List (Str × GoVal)) : UpdateQuerySafe cfg pc body := by
  unfold UpdateQuerySafe updateCore strippedBody
  cases hl : lookupKey cfg.keyField body with
  | none =>
    rcases updateAssemble_safe cfg pc body with ⟨m, hm⟩ | hx
    · simp [hm]
    · simp [hx]
  | some v =>
    cases v with
    | num q =>
      by_cases ht : truncInt q = pc
      · rcases updateAssemble_safe cfg pc (stripKey cfg.keyField body) with
          ⟨m, hm⟩ | hx
        · simp [ht, hm]
        · simp [ht, hx]
      · simp [ht]
    | null => simp
    | bool b => simp
    | str v => simp
    | arr xs => simp
    | obj kvs => simp
    | int n => simp

/-- C1: for every seat-list or update request, the SQL query text the
handlers build consists only of fixed fragments and column names drawn from
the hardcoded allow-lists (selected fields from `allowedFields`, filter
columns from `filterParams`, sort keys from `allowedSortFields`, `SET`
columns from the update allow-list), while every user-supplied value —
filter values, search string, update values, path key — travels only in the
positional argument list, never in the query text: the text equals a
rendering function applied to column names and presence flags alone, and
the argument list equals exactly the request values. -/
theorem claim_C1_parameterized_queries :
    (∀ r : SeatListReq, SeatsListQuerySafe r) ∧
    (∀ (pathCode : ℤ) (body : List (Str × GoVal)),
       UpdateQuerySafe seatUpdCfg pathCode body) ∧
    (∀ (pathCode : ℤ) (body : List (Str × GoVal)),
       UpdateQuerySafe roomUpdCfg pathCode body) ∧
    (∀ (allowed : List Str) (body : List (Str × GoVal)),
       ∀ c ∈ filteredKeys allowed body, c ∈ allowed) := by
  refine ⟨fun r => ?_, fun pc body => updateCore_safe seatUpdCfg pc body,
    fun pc body => updateCore_safe roomUpdCfg pc body,
    fun allowed body c hc => of_decide_eq_true (List.mem_filter.mp hc).2⟩
  exact ⟨selectFields_sub seatAllowedFields r.xFields,
    fun c hc => List.mem_of_mem_filter hc,
    seatSortClause_safe r.sort,
    (GetSeatsQuery_eq r).1, (GetSeatsQuery_eq r).2⟩

theorem updateCore_mismatch (cfg : UpdCfg) (pc : ℤ)
    (body : List (Str × GoVal)) (q : ℚ)
    (hl : lookupKey cfg.keyField body = some (GoVal.num q))
    (hne : truncInt q ≠ pc) :
    updateCore cfg pc body = .badRequest cfg.mismatchMsg := by
  unfold updateCore
  rw [hl]
  simp [hne]

theorem updateAssemble_bad (cfg : UpdCfg) (pc : ℤ)
    (b1 : List (Str × GoVal))
    (h : b1 = [] ∨ filteredKeys cfg.allowed b1 = []) :
    ∃ m, updateAssemble cfg pc b1 = .badRequest m := by
  cases hb : b1 with
  | nil => exact ⟨cfg.emptyMsg, rfl⟩
  | cons kv rest =>
    rcases h with h | h
    · rw [hb] at h; cases h
    · rw [hb] at h
      refine ⟨cfg.invalidMsg, ?_⟩
      unfold updateAssemble
      rw [buildSet_eq cfg.allowed (kv :: rest) 1, h]
      rfl

theorem updateCore_rejects (cfg : UpdCfg) (pc : ℤ)
    (body : List (Str × GoVal))
    (h : strippedBody cfg.keyField pc body = [] ∨
         filteredKeys cfg.allowed (strippedBody cfg.keyField pc body) = []) :
    isBadRequest (updateCore cfg pc body) = true ∧
    updateExecQuery (updateCore cfg pc body) = none := by
  unfold strippedBody at h
  unfold updateCore
  cases hl : lookupKey cfg.keyField body with
  | none =>
    rw [hl] at h
    obtain ⟨m, hm⟩ := updateAssemble_bad cfg pc body h
    rw [hm]
    exact ⟨rfl, rfl⟩
  | some v =>
    cases v with
    | num q =>
      rw [hl] at h
      by_cases ht : truncInt q = pc
      · have h2 : stripKey cfg.keyField body = [] ∨
            filteredKeys cfg.allowed (stripKey cfg.keyField body) = [] := by
          simpa [ht] using h
        obtain ⟨m, hm⟩ :=
          updateAssemble_bad cfg pc (stripKey cfg.keyField body) h2
        simp [ht, hm, isBadRequest, updateExecQuery]
      · simp [ht, isBadRequest, updateExecQuery]
    | null => exact ⟨rfl, rfl⟩
    | bool b => exact ⟨rfl, rfl⟩
    | str v => exact ⟨rfl, rfl⟩
    | arr xs => exact ⟨rfl, rfl⟩
    | obj kvs => exact ⟨rfl, rfl⟩
    | int n => exact ⟨rfl, rfl⟩

/-- C2 (amended): an update whose body business key is numeric and, after
Go integer truncation, differs from the path key answers 400 with the
mismatch message; an update whose body — after stripping a matching
business key — is empty or keeps no allow-listed key answers 400; in every
such case no `UPDATE` statement is produced, so no row changes. -/
theorem claim_C2_update_rejections :
    (∀ (pathCode : ℤ) (body : List (Str × GoVal)) (q : ℚ),
       lookupKey seatUpdCfg.keyField body = some (GoVal.num q) →
       truncInt q ≠ pathCode →
       UpdateSeatCore pathCode body = .badRequest seatUpdCfg.mismatchMsg) ∧
    (∀ (pathCode : ℤ) (body : List (Str × GoVal)),
       strippedBody seatUpdCfg.keyField pathCode body = [] ∨
       filteredKeys seatUpdCfg.allowed
         (strippedBody seatUpdCfg.keyField pathCode body) = [] →
       isBadRequest (UpdateSeatCore pathCode body) = true ∧
       updateExecQuery (UpdateSeatCore pathCode body) = none) ∧
    (∀ (pathCode : ℤ) (body : List (Str × GoVal)) (q : ℚ),
       lookupKey roomUpdCfg.keyField body = some (GoVal.num q) →
       truncInt q ≠ pathCode →
       UpdateRoomCore pathCode body = .badRequest roomUpdCfg.mismatchMsg) ∧
    (∀ (pathCode : ℤ) (body : List (Str × GoVal)),
       strippedBody roomUpdCfg.keyField pathCode body = [] ∨
       filteredKeys roomUpdCfg.allowed
         (strippedBody roomUpdCfg.keyField pathCode body) = [] →
       isBadRequest (UpdateRoomCore pathCode body) = true ∧
       updateExecQuery (UpdateRoomCore pathCode body) = none) :=
  ⟨fun pc body q hl hne => updateCore_mismatch seatUpdCfg pc body q hl hne,
   fun pc body h => updateCore_rejects seatUpdCfg pc body h,
   fun pc body q hl hne => updateCore_mismatch roomUpdCfg pc body q hl hne,
   fun pc body h => updateCore_rejects roomUpdCfg pc body h⟩

/-- The body of the request refuting C2 as stated: the business key is the
JSON number 5.5, which differs from the path key 5, yet Go truncation makes
the two equal, so the handler proceeds. -/
def c2CounterBody : List (Str × GoVal) :=
  [(chars "seat_code", GoVal.num (mkRat 11 2)),
   (chars "seat_title", GoVal.str (chars "A"))]

/-- C2 as stated is false: with path key 5 and body
`{"seat_code": 5.5, "seat_title": "A"}` the business-key value 5.5 is
numeric and different from the path key 5, yet `UpdateSeat` does not answer
400 — it executes an `UPDATE` statement (Go `int(5.5)` is 5). -/
theorem claim_C2_counterexample :
    lookupKey (chars "seat_code") c2CounterBody = some (GoVal.num (mkRat 11 2)) ∧
    mkRat 11 2 ≠ (5 : ℚ) ∧
    isBadRequest (UpdateSeatCore 5 c2CounterBody) = false ∧
    (updateExecQuery (UpdateSeatCore 5 c2CounterBody)).isSome = true := by
  refine ⟨rfl, by decide, ?_, ?_⟩
  · decide
  · decide

theorem mask_eval (u d pw rest : Str)
    (hu1 : ':' ∉ u) (hu2 : '@' ∉ u) (hd1 : ':' ∉ d) (hd2 : '@' ∉ d)
    (hp1 : ':' ∉ pw) (hp2 : '@' ∉ pw) :
    MaskSensitiveURL (u ++ chars ":" ++ d ++ chars ":" ++ pw ++ chars "@" ++ rest) =
      u ++ chars ":" ++ d ++ chars ":******@" ++ (splitOnChar '@' rest).headI := by
  have hassoc : u ++ chars ":" ++ d ++ chars ":" ++ pw ++ chars "@" ++ rest
      = (u ++ chars ":" ++ d ++ chars ":" ++ pw) ++ ('@' :: rest) := by
    simp [chars, List.append_assoc]
  have hpre_at : '@' ∉ u ++ chars ":" ++ d ++ chars ":" ++ pw := by
    simp only [chars, List.mem_append, List.mem_cons, List.not_mem_nil, or_false]
    intro h
    rcases h with ((((h | h) | h) | h) | h)
    · exact hu2 h
    · exact absurd h (by decide)
    · exact hd2 h
    · exact absurd h (by decide)
    · exact hp2 h
  have hne : (u ++ chars ":" ++ d ++ chars ":" ++ pw) ++ ('@' :: rest) ≠ [] := by
    simp
  rw [hassoc]
  unfold MaskSensitiveURL
  rw [if_neg hne, splitOnChar_append hpre_at]
  cases hsr : splitOnChar '@' rest with
  | nil => exact absurd hsr (splitOnChar_ne_nil '@' rest)
  | cons h1 t1 =>
    show maskCredentials (u ++ chars ":" ++ d ++ chars ":" ++ pw) h1
        = u ++ chars ":" ++ d ++ chars ":******@" ++ (h1 :: t1).headI
    have hpre : u ++ chars ":" ++ d ++ chars ":" ++ pw
        = u ++ ':' :: (d ++ ':' :: pw) := by
      simp [chars, List.append_assoc]
    have hsplit : splitOnChar ':' (u ++ chars ":" ++ d ++ chars ":" ++ pw)
        = u :: d :: [pw] := by
      rw [hpre, splitOnChar_append hu1, splitOnChar_append hd1,
        splitOnChar_of_not_mem hp1]
    unfold maskCredentials
    rw [hsplit]
    rfl

/-- C3: two non-empty connection URLs that differ only in the password —
the third colon-separated credential standing before the `@` — mask to the
same string, so the value `main.go` logs is independent of the password. -/
theorem claim_C3_mask_password_independent (u d pw1 pw2 rest : Str)
    (hu1 : ':' ∉ u) (hu2 : '@' ∉ u) (hd1 : ':' ∉ d) (hd2 : '@' ∉ d)
    (hp1 : ':' ∉ pw1) (hp2 : '@' ∉ pw1) (hq1 : ':' ∉ pw2) (hq2 : '@' ∉ pw2) :
    MaskSensitiveURL (u ++ chars ":" ++ d ++ chars ":" ++ pw1 ++ chars "@" ++ rest) =
    MaskSensitiveURL (u ++ chars ":" ++ d ++ chars ":" ++ pw2 ++ chars "@" ++ rest) := by
  rw [mask_eval u d pw1 rest hu1 hu2 hd1 hd2 hp1 hp2,
    mask_eval u d pw2 rest hu1 hu2 hd1 hd2 hq1 hq2]

/-- Witness for C3 at a concrete pair of URLs differing only in the
password. -/
theorem claim_C3_witness :
    MaskSensitiveURL (chars "postgres" ++ chars ":" ++ chars "user1"
        ++ chars ":" ++ chars "hunter2" ++ chars "@" ++ chars "localhost:5432/db") =
    MaskSensitiveURL (chars "postgres" ++ chars ":" ++ chars "user1"
        ++ chars ":" ++ chars "pw" ++ chars "@" ++ chars "localhost:5432/db") :=
  claim_C3_mask_password_independent (chars "postgres") (chars "user1")
    (chars "hunter2") (chars "pw") (chars "localhost:5432/db")
    (by decide) (by decide) (by decide) (by decide)
    (by decide) (by decide) (by decide) (by decide)

theorem queueStep_bound {a b : List Job} (h : QueueStep a b)
    (ha : a.length ≤ jobQueueCapacity) : b.length ≤ jobQueueCapacity := by
  cases h with
  | enq _ j =>
    unfold EnqueueJob
    by_cases hlt : a.length < jobQueueCapacity
    · rw [if_pos hlt]
      simp only [List.length_append, List.length_singleton]
      omega
    · rw [if_neg hlt]
      exact ha
  | deq j _ =>
    simp only [List.length_cons] at ha
    omega

/-- C4: the job queue has fixed capacity 100; an enqueue on a full queue
drops the job and leaves the queue unchanged, an enqueue on a non-full
queue appends, enqueue is a total function of the current state (it never
blocks the caller), and every state reachable from the empty channel by
enqueues and worker receives holds at most 100 jobs. -/
theorem claim_C4_queue_bounded :
    (∀ (q : List Job) (j : Job), jobQueueCapacity ≤ q.length →
       EnqueueJob q j = (q, true)) ∧
    (∀ (q : List Job) (j : Job), q.length < jobQueueCapacity →
       EnqueueJob q j = (q ++ [j], false)) ∧
    (∀ q : List Job, QueueReachable q → q.length ≤ jobQueueCapacity) := by
  refine ⟨fun q j h => ?_, fun q j h => ?_, fun q h => ?_⟩
  · unfold EnqueueJob
    rw [if_neg (by omega)]
  · unfold EnqueueJob
    rw [if_pos h]
  · induction h with
    | refl => simp
    | tail hsteps hstep ih => exact queueStep_bound hstep ih

/-- C5: for both list handlers, an absent `X-Fields` header selects the
full allow-list; a header none of whose comma-separated, trimmed names is
in the allow-list also selects the full allow-list; and a header with at
least one surviving name selects exactly the surviving names in request
order. -/
theorem claim_C5_field_selection :
    (selectFields seatAllowedFields [] = seatAllowedFields ∧
     selectFields roomAllowedFields [] = roomAllowedFields) ∧
    (∀ h : Str, matchedFields seatAllowedFields h = [] →
       selectFields seatAllowedFields h = seatAllowedFields) ∧
    (∀ h : Str, matchedFields roomAllowedFields h = [] →
       selectFields roomAllowedFields h = roomAllowedFields) ∧
    (∀ (h : Str) (x : Str) (xs : List Str),
       matchedFields seatAllowedFields h = x :: xs →
       selectFields seatAllowedFields h = x :: xs) ∧
    (∀ (h : Str) (x : Str) (xs : List Str),
       matchedFields roomAllowedFields h = x :: xs →
       selectFields roomAllowedFields h = x :: xs) := by
  refine ⟨⟨rfl, rfl⟩, fun h hm => ?_, fun h hm => ?_,
    fun h x xs hm => ?_, fun h x xs hm => ?_⟩
  · cases h with
    | nil => rfl
    | cons a t => simp only [selectFields]; rw [hm]
  · cases h with
    | nil => rfl
    | cons a t => simp only [selectFields]; rw [hm]
  · cases h with
    | nil =>
      rw [show matchedFields seatAllowedFields [] = [] from by decide] at hm
      exact absurd hm (by simp)
    | cons a t => simp only [selectFields]; rw [hm]
  · cases h with
    | nil =>
      rw [show matchedFields roomAllowedFields [] = [] from by decide] at hm
      exact absurd hm (by simp)
    | cons a t => simp only [selectFields]; rw [hm]

/-- C6: a create whose decoded body omits the dimension and color fields —
so they hold the Go zero values — inserts and echoes back, with status 201,
the record with width 100, height 100, background color `#FFFFFF`, title
background `#000000` and title text `#FFFFFF`, all other fields
untouched. -/
theorem claim_C6_create_defaults :
    (∀ st : Seat, st.seatWidth = 0 → st.seatHeight = 0 →
       st.seatBackgroundColor = [] → st.titleBackgroundColor = [] →
       st.titleTextColor = [] →
       CreateSeat st none = .created
         { st with
            seatWidth := 100
            seatHeight := 100
            seatBackgroundColor := chars "#FFFFFF"
            titleBackgroundColor := chars "#000000"
            titleTextColor := chars "#FFFFFF" }) ∧
    (∀ st : Room, st.roomWidth = 0 → st.roomHeight = 0 →
       st.roomBackgroundColor = [] → st.titleBackgroundColor = [] →
       st.titleTextColor = [] →
       CreateRoom st none = .created
         { st with
            roomWidth := 100
            roomHeight := 100
            roomBackgroundColor := chars "#FFFFFF"
            titleBackgroundColor := chars "#000000"
            titleTextColor := chars "#FFFFFF" }) := by
  constructor
  · intro st h1 h2 h3 h4 h5
    simp [CreateSeat, applySeatDefaults, h1, h2, h3, h4, h5]
  · intro st h1 h2 h3 h4 h5
    simp [CreateRoom, applyRoomDefaults, h1, h2, h3, h4, h5]

/-- C7: a failed insert answers 400 with the "already exists" message
exactly when the database error text contains the substring
`duplicate key`, and answers 500 echoing the raw error text otherwise. -/
theorem claim_C7_duplicate_key :
    (∀ (st : Seat) (e : Str), containsSub (chars "duplicate key") e = true →
       CreateSeat st (some e) =
         .badRequest (chars "이미 존재하는 seat code입니다")) ∧
    (∀ (st : Seat) (e : Str), containsSub (chars "duplicate key") e = false →
       CreateSeat st (some e) = .serverError e) ∧
    (∀ (st : Room) (e : Str), containsSub (chars "duplicate key") e = true →
       CreateRoom st (some e) =
         .badRequest (chars "이미 존재하는 room code입니다")) ∧
    (∀ (st : Room) (e : Str), containsSub (chars "duplicate key") e = false →
       CreateRoom st (some e) = .serverError e) := by
  refine ⟨fun st e h => ?_, fun st e h => ?_, fun st e h => ?_, fun st e h => ?_⟩
  · simp [CreateSeat, h]
  · simp [CreateSeat, h]
  · simp [CreateRoom, h]
  · simp [CreateRoom, h]

theorem GetSeatsQuery_split (r : SeatListReq) :
    (GetSeatsQuery r).1 = seatsSelectWhere r ++ seatSortClause r.sort := rfl

theorem seatSortClause_unrecognized (srt : Str) (hne : srt ≠ [])
    (hkey : sortKeyOf srt ∉ seatAllowedSortFields) : seatSortClause srt = [] := by
  cases srt with
  | nil => exact absurd rfl hne
  | cons c t =>
    by_cases hc : c = '-'
    · simp only [sortKeyOf, if_pos hc] at hkey
      simp [seatSortClause, hc, hkey]
    · simp only [sortKeyOf, if_neg hc] at hkey
      simp [seatSortClause, hc, hkey]

/-- C8 (amended): when the seat-list sort parameter is absent the query
ends with the default `ORDER BY seat_code ASC`; when the parameter names a
key outside the sort allow-list (after stripping an optional leading dash)
the key is silently ignored and no `ORDER BY` clause at all is appended, so
the rows come in database default order; a leading dash on an allow-listed
key yields descending order. -/
theorem claim_C8_sort_handling :
    (∀ r : SeatListReq, r.sort = [] →
       (GetSeatsQuery r).1 = seatsSelectWhere r ++ chars " ORDER BY seat_code ASC") ∧
    (∀ r : SeatListReq, r.sort ≠ [] →
       sortKeyOf r.sort ∉ seatAllowedSortFields →
       (GetSeatsQuery r).1 = seatsSelectWhere r) ∧
    (∀ (r : SeatListReq) (key : Str), r.sort = '-' :: key →
       key ∈ seatAllowedSortFields →
       (GetSeatsQuery r).1 = seatsSelectWhere r ++
         (chars " ORDER BY " ++ key ++ chars " " ++ chars "DESC")) := by
  refine ⟨fun r h => ?_, fun r hne hkey => ?_, fun r key h hk => ?_⟩
  · rw [GetSeatsQuery_split, h]
    rfl
  · rw [GetSeatsQuery_split, seatSortClause_unrecognized r.sort hne hkey,
      List.append_nil]
  · rw [GetSeatsQuery_split, h]
    simp [seatSortClause, hk]

/-- The seat-list request refuting C8 as stated: every header, filter and
search parameter absent, and the sort parameter set to the unrecognised key
`bogus`. -/
def c8Req : SeatListReq :=
  { xFields := [], companyCode := [], seatCode := [], gender := []
    waiting := [], release := [], kioskDisabled := [], powerControl := []
    search := [], sort := chars "bogus" }

/-- C8 as stated is false: with the unrecognised sort key `bogus` the query
is exactly the `SELECT ... FROM seat_table` text with no `ORDER BY`
fragment appended, while the same request without a sort parameter — the
default ordering the claim says applies — appends ` ORDER BY seat_code
ASC`; the two queries differ. -/
theorem claim_C8_counterexample :
    (GetSeatsQuery c8Req).1 = seatsSelectWhere c8Req ∧
    (GetSeatsQuery { c8Req with sort := [] }).1 =
      seatsSelectWhere c8Req ++ chars " ORDER BY seat_code ASC" ∧
    (GetSeatsQuery c8Req).1 ≠ (GetSeatsQuery { c8Req with sort := [] }).1 := by
  have hbogus : seatSortClause (chars "bogus") = [] := by decide
  have h1 : (GetSeatsQuery c8Req).1 = seatsSelectWhere c8Req := by
    rw [GetSeatsQuery_split, show c8Req.sort = chars "bogus" from rfl, hbogus,
      List.append_nil]
  have h2 : (GetSeatsQuery { c8Req with sort := [] }).1 =
      seatsSelectWhere c8Req ++ chars " ORDER BY seat_code ASC" := by
    rw [GetSeatsQuery_split]
    rfl
  refine ⟨h1, h2, ?_⟩
  rw [h1, h2]
  intro heq
  have hlen := congrArg List.length heq
  rw [List.length_append,
    show (chars " ORDER BY seat_code ASC").length = 23 from by decide] at hlen
  omega

/-- C9: deletion is idempotent and performs no existence check: for every
integer business key, deleting once answers 204, deleting again answers 204
as well, and the second deletion leaves the table exactly as the first left
it — regardless of whether any row with that key ever existed. -/
theorem claim_C9_delete_idempotent :
    (∀ (code : ℤ) (db : List Seat),
       (DeleteSeatExec code db none).1 = 204 ∧
       (DeleteSeatExec code (DeleteSeatExec code db none).2 none).1 = 204 ∧
       (DeleteSeatExec code (DeleteSeatExec code db none).2 none).2 =
         (DeleteSeatExec code db none).2) ∧
    (∀ (code : ℤ) (db : List Room),
       (DeleteRoomExec code db none).1 = 204 ∧
       (DeleteRoomExec code (DeleteRoomExec code db none).2 none).1 = 204 ∧
       (DeleteRoomExec code (DeleteRoomExec code db none).2 none).2 =
         (DeleteRoomExec code db none).2) := by
  refine ⟨fun code db => ⟨rfl, rfl, ?_⟩, fun code db => ⟨rfl, rfl, ?_⟩⟩
  · simp [DeleteSeatExec, List.filter_filter]
  · simp [DeleteRoomExec, List.filter_filter]

/-- C10: the create handlers cannot distinguish omitted optional fields
from explicitly supplied zero values: whenever the decoded record carries
width 0, height 0, or an empty color string — whether the client omitted
the field or sent the zero value — the inserted and echoed record holds the
default in its place (100, 100, `#FFFFFF`, `#000000`, `#FFFFFF`). -/
theorem applySeatDefaults_eq (st : Seat) :
    applySeatDefaults st = { st with
      seatWidth := if st.seatWidth = 0 then 100 else st.seatWidth
      seatHeight := if st.seatHeight = 0 then 100 else st.seatHeight
      seatBackgroundColor :=
        if st.seatBackgroundColor = [] then chars "#FFFFFF"
        else st.seatBackgroundColor
      titleBackgroundColor :=
        if st.titleBackgroundColor = [] then chars "#000000"
        else st.titleBackgroundColor
      titleTextColor :=
        if st.titleTextColor = [] then chars "#FFFFFF"
        else st.titleTextColor } := by
  unfold applySeatDefaults
  by_cases h1 : st.seatWidth = 0 <;> by_cases h2 : st.seatHeight = 0 <;>
    by_cases h3 : st.seatBackgroundColor = [] <;>
    by_cases h4 : st.titleBackgroundColor = [] <;>
    by_cases h5 : st.titleTextColor = [] <;>
    simp [h1, h2, h3, h4, h5]

theorem applyRoomDefaults_eq (st : Room) :
    applyRoomDefaults st = { st with
      roomWidth := if st.roomWidth = 0 then 100 else st.roomWidth
      roomHeight := if st.roomHeight = 0 then 100 else st.roomHeight
      roomBackgroundColor :=
        if st.roomBackgroundColor = [] then chars "#FFFFFF"
        else st.roomBackgroundColor
      titleBackgroundColor :=
        if st.titleBackgroundColor = [] then chars "#000000"
        else st.titleBackgroundColor
      titleTextColor :=
        if st.titleTextColor = [] then chars "#FFFFFF"
        else st.titleTextColor } := by
  unfold applyRoomDefaults
  by_cases h1 : st.roomWidth = 0 <;> by_cases h2 : st.roomHeight = 0 <;>
    by_cases h3 : st.roomBackgroundColor = [] <;>
    by_cases h4 : st.titleBackgroundColor = [] <;>
    by_cases h5 : st.titleTextColor = [] <;>
    simp [h1, h2, h3, h4, h5]

theorem claim_C10_zero_values_get_defaults :
    (∀ st : Seat, CreateSeat st none = .created (applySeatDefaults st)) ∧
    (∀ st : Seat, st.seatWidth = 0 → (applySeatDefaults st).seatWidth = 100) ∧
    (∀ st : Seat, st.seatHeight = 0 → (applySeatDefaults st).seatHeight = 100) ∧
    (∀ st : Seat, st.seatBackgroundColor = [] →
       (applySeatDefaults st).seatBackgroundColor = chars "#FFFFFF") ∧
    (∀ st : Seat, st.titleBackgroundColor = [] →
       (applySeatDefaults st).titleBackgroundColor = chars "#000000") ∧
    (∀ st : Seat, st.titleTextColor = [] →
       (applySeatDefaults st).titleTextColor = chars "#FFFFFF") ∧
    (∀ st : Room, CreateRoom st none = .created (applyRoomDefaults st)) ∧
    (∀ st : Room, st.roomWidth = 0 → (applyRoomDefaults st).roomWidth = 100) ∧
    (∀ st : Room, st.roomHeight = 0 → (applyRoomDefaults st).roomHeight = 100) ∧
    (∀ st : Room, st.roomBackgroundColor = [] →
       (applyRoomDefaults st).roomBackgroundColor = chars "#FFFFFF") ∧
    (∀ st : Room, st.titleBackgroundColor = [] →
       (applyRoomDefaults st).titleBackgroundColor = chars "#000000") ∧
    (∀ st : Room, st.titleTextColor = [] →
       (applyRoomDefaults st).titleTextColor = chars "#FFFFFF") := by
  refine ⟨fun st => rfl, fun st h => ?_, fun st h => ?_, fun st h => ?_,
    fun st h => ?_, fun st h => ?_, fun st => rfl, fun st h => ?_,
    fun st h => ?_, fun st h => ?_, fun st h => ?_, fun st h => ?_⟩
  all_goals first
    | (rw [applySeatDefaults_eq]; simp [h])
    | (rw [applyRoomDefaults_eq]; simp [h])

end AllinB
